import Mathlib

/-!
Shallow embedding of the PromptVault sync core (VS Code extension
"promptitude"): the multi-repository sync orchestration engine of
`syncManager.ts`, the provider resolver of `gitProviderFactory.ts`, and the
repository-list sanitisation of `configManager.ts`.

Conventions of the embedding:
* JavaScript strings are Lean `String`s; the few string operations the source
  uses (`trim`, `startsWith`, `endsWith`, regex containment tests,
  `path.basename`, `path.join`) are re-implemented on the character list so
  that every predicate is executable.
* Asynchronous collaborator calls (`checkAuthentication`,
  `getRepositoryTree`, `getFileContent`, …) are modelled as a per-repository
  environment of pure results; a call that can throw is modelled with
  `Except String`.
* The local file system is a map from path to `some content` (readable
  file) or `none` (a file whose read throws); an absent key is a missing
  file.  Side effects (notifications, fetch calls) are returned as traces.
-/

namespace PromptVault

/-! ## String helpers (JS semantics) -/

/-- Substring test on character lists (JS `RegExp.test` with a literal
pattern / `String.includes`). -/
def listIsInfixOf (needle : List Char) : List Char → Bool
  | [] => needle.isEmpty
  | a :: t => needle.isPrefixOf (a :: t) || listIsInfixOf needle t

/-- `pat` occurs somewhere in `s`. -/
def strContains (s pat : String) : Bool :=
  listIsInfixOf pat.data s.data

/-- JS `String.prototype.startsWith`. -/
def strStartsWith (s pre : String) : Bool :=
  pre.data.isPrefixOf s.data

/-- JS `String.prototype.endsWith`. -/
def strEndsWith (s suf : String) : Bool :=
  suf.data.isSuffixOf s.data

/-- JS `String.prototype.trim` (whitespace from both ends). -/
def jsTrim (s : String) : String :=
  String.mk (((s.data.dropWhile Char.isWhitespace).reverse.dropWhile
    Char.isWhitespace).reverse)

/-- `path.basename` for forward-slash (repo-relative) paths: the part after
the last `/`. -/
def basename (p : String) : String :=
  String.mk ((p.data.reverse.takeWhile (fun c => c ≠ '/')).reverse)

/-- `path.join(dir, name)` as used by the materializer (one separator). -/
def joinPath (dir name : String) : String :=
  dir ++ "/" ++ name

/-! ## Provider resolver (`gitProviderFactory.ts`) -/

deriving instance DecidableEq for Except

/-- `type GitProvider = 'github' | 'azure' | 'gitlab' | 'bitbucket' |
'unknown'` from `gitProvider.ts`. -/
inductive GitProvider
  | github
  | azure
  | gitlab
  | bitbucket
  | unknown
  deriving DecidableEq, Repr

/-- `url.replace(/\.git$/, '').replace(/\/$/, '')` in
`GitProviderFactory.detectProvider`. -/
def cleanRepoUrl (url : String) : String :=
  let r1 := if strEndsWith url ".git" then
    String.mk (url.data.take (url.data.length - 4)) else url
  if strEndsWith r1 "/" then
    String.mk (r1.data.take (r1.data.length - 1)) else r1

/-- `GitProviderFactory.detectProvider` (`gitProviderFactory.ts`,
lines 35–59): pattern tests against the cleaned URL, in source order. -/
def detectProvider (url : String) : GitProvider :=
  let cleanUrl := cleanRepoUrl url
  if strContains cleanUrl "github.com" then .github
  else if strContains cleanUrl "dev.azure.com" ||
      strContains cleanUrl ".visualstudio.com" then .azure
  else if strContains cleanUrl "gitlab.com" ||
      strContains cleanUrl "gitlab." then .gitlab
  else if strContains cleanUrl "bitbucket.org" then .bitbucket
  else .unknown

/-! ## Configuration (`configManager.ts`) -/

/-- First-occurrence de-duplication with the already-kept entries as
accumulator. -/
def dedupFirstAux (seen : List String) : List String → List String
  | [] => []
  | x :: xs =>
    if x ∈ seen then dedupFirstAux seen xs
    else x :: dedupFirstAux (x :: seen) xs

/-- First-occurrence de-duplication, the order `Array.from(new Set(xs))`
produces in JS. -/
def dedupFirst (l : List String) : List String :=
  dedupFirstAux [] l

/-- The sanitisation pipeline of the `ConfigManager.repositories` getter
(`configManager.ts`, lines 45–55): trim each entry, drop empties,
de-duplicate exact strings. -/
def sanitizeRepositories (raw : List String) : List String :=
  dedupFirst ((raw.map jsTrim).filter (fun r => r.length > 0))

/-- The getter shows the "Duplicate repository URLs found" warning iff
`uniqueArray.length !== repository.length`. -/
def repositoriesWarning (raw : List String) : Bool :=
  (sanitizeRepositories raw).length ≠ raw.length

/-- `{ url, branch }` entry of `ConfigManager.repositoryConfigs`. -/
structure RepoConfig where
  url : String
  branch : String
  deriving DecidableEq, Repr

/-- JS `String.prototype.split` on a single separator character, on
character lists (`acc` holds the current segment reversed). -/
def splitCharAux (sep : Char) (acc : List Char) :
    List Char → List (List Char)
  | [] => [acc.reverse]
  | c :: t =>
    if c = sep then acc.reverse :: splitCharAux sep [] t
    else splitCharAux sep (c :: acc) t

/-- JS `s.split(sep)` for a one-character separator. -/
def jsSplit (s : String) (sep : Char) : List String :=
  (splitCharAux sep [] s.data).map String.mk

/-- Parsing of one configuration entry in `repositoryConfigs`:
`const [url, branch] = entry.split('|')` with branch defaulting to
`"main"` when absent or blank. -/
def parseRepoEntry (entry : String) : RepoConfig :=
  let parts := jsSplit entry '|'
  let url := parts.headD ""
  match parts[1]? with
  | some b => if jsTrim b ≠ "" then ⟨url, jsTrim b⟩ else ⟨url, "main"⟩
  | none => ⟨url, "main"⟩

/-- `ConfigManager.repositoryConfigs`. -/
def repositoryConfigs (raw : List String) : List RepoConfig :=
  (sanitizeRepositories raw).map parseRepoEntry

/-! ## Data model of the sync core (`syncManager.ts`) -/

/-- The `'blob' | 'tree'` discriminator of `GitTreeItem.type`
(`gitProvider.ts`). -/
inductive TreeEntryType
  | blob
  | tree
  deriving DecidableEq, Repr

/-- The fields of `GitTreeItem` the sync core consumes (`path`, `type`);
`mode`, `sha` and `url` are never read by `SyncManager`. -/
structure GitTreeItem where
  path : String
  type : TreeEntryType
  deriving DecidableEq, Repr

/-- `RepositorySyncResult`. -/
structure RepositorySyncResult where
  repository : String
  success : Bool
  itemsUpdated : Nat
  error : Option String
  deriving DecidableEq, Repr

/-- `MultiRepositorySyncResult`. -/
structure MultiRepositorySyncResult where
  overallSuccess : Bool
  totalItemsUpdated : Nat
  repositories : List RepositorySyncResult
  errors : List String
  deriving DecidableEq, Repr

/-- `SyncResult`, the return type of the public `syncNow`. -/
structure SyncResult where
  success : Bool
  itemsUpdated : Nat
  error : Option String
  deriving DecidableEq, Repr

/-- The local prompts directory as seen through `FileSystemManager`:
`fs p = some (some c)` is a readable file with content `c`,
`fs p = some none` is a file whose read throws, and `fs p = none` is a
missing file. -/
def LocalFS := String → Option (Option String)

/-- `FileSystemManager.writeFileContent` (a write always succeeds in the
model and makes the file readable). -/
def LocalFS.write (fs : LocalFS) (p c : String) : LocalFS :=
  fun q => if q = p then some (some c) else fs q

/-- Relevant observable configuration of one sync run (the `ConfigManager`
getters `SyncManager` reads during the pass). -/
structure Config where
  enabled : Bool
  syncChatmode : Bool
  syncInstructions : Bool
  syncPrompt : Bool
  promptsDirectory : String

/-- One repository's remote collaborator, obtained through
`GitProviderFactory.createFromUrl` and the `GitApiManager` interface.  The
`owner`/`repo`/`branch` arguments of the remote calls are constant within
one repository pass, so they are absorbed into the environment; a call that
the source observes through `try`/`catch` is an `Except`.
`checkAuth1`/`checkAuth2` are the results of the first and second
`checkAuthentication()` calls. -/
structure ProviderEnv where
  providerName : String
  create : Except String Unit
  checkAuth1 : Bool
  checkAuth2 : Bool
  requestAuth : Bool
  parseUrl : Except String (String × String)
  tree : Except String (List GitTreeItem)
  fileContent : String → Except String String

/-- World the orchestrator runs against: the provider for each repository
URL and the (possibly throwing) read of the raw `repositories`
configuration value. -/
structure SyncEnv where
  providers : String → ProviderEnv
  repositoriesRead : Except String (List String)

/-! ## Path-prefix constants

Modelled from the spec: `constant.ts` (exporting
`REPO_SYNC_CHAT_MODE_PATH`, `REPO_SYNC_INSTRUCTIONS_PATH`,
`REPO_SYNC_PROMPT_PATH`) is not part of the provided sources; the spec's
scenario (§8) and the repository README pin the three prefixes to the
`prompts/…` subdirectories. -/

/-- Modelled from the spec: chatmode prompt location. -/
def REPO_SYNC_CHAT_MODE_PATH : String := "prompts/chatmode/"

/-- Modelled from the spec: instructions prompt location. -/
def REPO_SYNC_INSTRUCTIONS_PATH : String := "prompts/instructions/"

/-- Modelled from the spec: plain prompt location. -/
def REPO_SYNC_PROMPT_PATH : String := "prompts/prompt/"

/-! ## Filtering and materialization -/

/-- Path normalisation inside `filterRelevantFiles`:
`path.replace(/\\/g, '/').replace(/^\/+/, '')`. -/
def normalizePath (p : String) : String :=
  String.mk ((p.data.map (fun c => if c = '\\' then '/' else c)).dropWhile
    (fun c => c = '/'))

/-- `SyncManager.filterRelevantFiles` (`syncManager.ts`, lines 130–172). -/
def filterRelevantFiles (cfg : Config) (tree : List GitTreeItem) :
    List GitTreeItem :=
  let allowedPaths :=
    (if cfg.syncChatmode then [REPO_SYNC_CHAT_MODE_PATH] else []) ++
    (if cfg.syncInstructions then [REPO_SYNC_INSTRUCTIONS_PATH] else []) ++
    (if cfg.syncPrompt then [REPO_SYNC_PROMPT_PATH] else [])
  if allowedPaths.isEmpty then []
  else tree.filter fun item =>
    let isBlob := item.type = TreeEntryType.blob
    let normalizedPath := normalizePath item.path
    let matchesPath := allowedPaths.any fun p =>
      strStartsWith normalizedPath (normalizePath p)
    let isRelevantFile :=
      strEndsWith item.path ".md" || strEndsWith item.path ".txt"
    isBlob && matchesPath && isRelevantFile

/-- `SyncManager.shouldUpdateFile` (`syncManager.ts`, lines 330–341):
missing file ⇒ update; read error ⇒ update (the surrounding `catch`);
otherwise update iff contents differ. -/
def shouldUpdateFile (fs : LocalFS) (localPath newContent : String) : Bool :=
  match fs localPath with
  | none => true
  | some none => true
  | some (some existingContent) => existingContent ≠ newContent

/-- Result of one `syncFiles` call: the updated-items count, the file
system after the writes, and the paths for which `getFileContent` was
called (the per-file network fetches). -/
structure SyncFilesOut where
  itemsUpdated : Nat
  fs : LocalFS
  fetched : List String

/-- `SyncManager.syncFiles` (`syncManager.ts`, lines 174–220).  A throwing
`getFileContent` returns the count accumulated so far and abandons the
remaining files; empty content is skipped; otherwise the file is
materialised at `promptsDir/basename(path)` when `shouldUpdateFile`. -/
def syncFiles (fileContent : String → Except String String)
    (promptsDir : String) (files : List GitTreeItem) (fs : LocalFS) :
    SyncFilesOut :=
  match files with
  | [] => ⟨0, fs, []⟩
  | f :: rest =>
    match fileContent f.path with
    | .error _ => ⟨0, fs, [f.path]⟩
    | .ok content =>
      if content = "" then
        let out := syncFiles fileContent promptsDir rest fs
        ⟨out.itemsUpdated, out.fs, f.path :: out.fetched⟩
      else
        let localPath := joinPath promptsDir (basename f.path)
        if shouldUpdateFile fs localPath content then
          let out := syncFiles fileContent promptsDir rest
            (fs.write localPath content)
          ⟨out.itemsUpdated + 1, out.fs, f.path :: out.fetched⟩
        else
          let out := syncFiles fileContent promptsDir rest fs
          ⟨out.itemsUpdated, out.fs, f.path :: out.fetched⟩

/-! ## Per-repository pass (`syncMultipleRepositories` loop body) -/

/-- The remediation message recorded when the filtered set is empty
(`syncManager.ts`, lines 281–287). -/
def noRelevantFilesMessage : String :=
  "No relevant files found, make sure prompts are in valid directories: " ++
  REPO_SYNC_CHAT_MODE_PATH ++ ", " ++ REPO_SYNC_INSTRUCTIONS_PATH ++ ", " ++
  REPO_SYNC_PROMPT_PATH

/-- Observable outcome of processing one configured repository inside the
loop of `syncMultipleRepositories`: the pushed `RepositorySyncResult`, the
strings appended to `errors`, the file system afterwards, and the traces of
the collaborator calls this repository caused. -/
structure RepoPassOut where
  outcome : RepositorySyncResult
  errorsAppend : List String
  fs : LocalFS
  fetched : List String
  authNotice : Bool
  requestAuthCalled : Bool
  treeFetched : Bool

/-- A failure caught by the per-repository `catch` (`syncManager.ts`,
lines 305–317): push `{repository, success: false, itemsUpdated: 0,
error}` and append `"<url>: <error>"` to `errors`. -/
def repoFailure (url msg : String) (fs : LocalFS)
    (authNotice requestAuthCalled treeFetched : Bool) : RepoPassOut :=
  ⟨⟨url, false, 0, some msg⟩, [url ++ ": " ++ msg], fs, [],
    authNotice, requestAuthCalled, treeFetched⟩

/-- The part of the loop body after authentication succeeded:
`parseRepositoryUrl`, `getRepositoryTree`, `filterRelevantFiles`, the
empty-filter failure, and `syncFiles` (`syncManager.ts`, lines 262–303). -/
def repoPassAfterAuth (cfg : Config) (p : ProviderEnv) (url : String)
    (fs : LocalFS) (authNotice requestAuthCalled : Bool) : RepoPassOut :=
  match p.parseUrl with
  | .error msg => repoFailure url msg fs authNotice requestAuthCalled false
  | .ok _ =>
    match p.tree with
    | .error msg => repoFailure url msg fs authNotice requestAuthCalled true
    | .ok tree =>
      let relevantFiles := filterRelevantFiles cfg tree
      if relevantFiles.isEmpty then
        ⟨⟨url, false, 0, some noRelevantFilesMessage⟩,
          [url ++ ": No relevant files found"], fs, [],
          authNotice, requestAuthCalled, true⟩
      else
        let out := syncFiles p.fileContent cfg.promptsDirectory
          relevantFiles fs
        ⟨⟨url, true, out.itemsUpdated, none⟩, [], out.fs, out.fetched,
          authNotice, requestAuthCalled, true⟩

/-- One iteration of the repository loop of `syncMultipleRepositories`
(`syncManager.ts`, lines 229–317): provider creation, the
check/notify/re-check/request authentication ladder (a final refusal throws
`"<provider> authentication failed"` into the per-repository `catch`), then
`repoPassAfterAuth`. -/
def syncOneRepository (cfg : Config) (env : SyncEnv) (rc : RepoConfig)
    (fs : LocalFS) : RepoPassOut :=
  let p := env.providers rc.url
  match p.create with
  | .error msg => repoFailure rc.url msg fs false false false
  | .ok _ =>
    if p.checkAuth1 then
      repoPassAfterAuth cfg p rc.url fs false false
    else if p.checkAuth2 then
      repoPassAfterAuth cfg p rc.url fs true false
    else if p.requestAuth then
      repoPassAfterAuth cfg p rc.url fs true true
    else
      repoFailure rc.url (p.providerName ++ " authentication failed") fs
        true true false

/-- Aggregated observable result of `syncMultipleRepositories`: the
returned `MultiRepositorySyncResult` plus the final file system and the
side-effect traces (fetch calls tagged with their repository URL,
authentication notices, interactive authentication requests, tree
fetches). -/
structure MultiSyncOut where
  result : MultiRepositorySyncResult
  fs : LocalFS
  fetched : List (String × String)
  authNotices : List String
  requestAuthCalls : List String
  treeFetches : List String

/-- `SyncManager.syncMultipleRepositories` (`syncManager.ts`,
lines 222–328): sequential left-to-right pass over the configured
repositories, threading the file system; `overallSuccess` is the
conjunction of the outcomes and `totalItemsUpdated` accumulates only on the
success branch (failure outcomes carry `itemsUpdated: 0`). -/
def syncMultipleRepositories (cfg : Config) (env : SyncEnv)
    (rcs : List RepoConfig) (fs : LocalFS) : MultiSyncOut :=
  match rcs with
  | [] => ⟨⟨true, 0, [], []⟩, fs, [], [], [], []⟩
  | rc :: rest =>
    let r := syncOneRepository cfg env rc fs
    let restOut := syncMultipleRepositories cfg env rest r.fs
    ⟨⟨r.outcome.success && restOut.result.overallSuccess,
      (if r.outcome.success then r.outcome.itemsUpdated else 0) +
        restOut.result.totalItemsUpdated,
      r.outcome :: restOut.result.repositories,
      r.errorsAppend ++ restOut.result.errors⟩,
      restOut.fs,
      r.fetched.map (fun p => (rc.url, p)) ++ restOut.fetched,
      (if r.authNotice then [rc.url] else []) ++ restOut.authNotices,
      (if r.requestAuthCalled then [rc.url] else []) ++
        restOut.requestAuthCalls,
      (if r.treeFetched then [rc.url] else []) ++ restOut.treeFetches⟩

/-! ## Public entry point `syncNow` -/

/-- Observable behaviour of one `syncNow` invocation: the returned
`SyncResult`, whether `scheduleNextSync` was invoked afterwards, and the
repository pass when one ran (`none` when sync is disabled or the
configuration read threw before the loop). -/
structure SyncNowOut where
  result : SyncResult
  scheduled : Bool
  multi : Option MultiSyncOut

set_option linter.unusedVariables false in
/-- `SyncManager.syncNow` (`syncManager.ts`, lines 77–128).  The
`isSyncRunning` argument models whether another sync pass is currently in
flight; the source consults no such state (its only top-of-function check
is `config.enabled`), so the definition ignores it.  A throwing
configuration read is the only pre-loop failure and lands in the single
outer `catch`, which returns a total-failure `SyncResult` without invoking
`scheduleNextSync`; the normal aggregation path invokes `scheduleNextSync`
and never throws. -/
def syncNow (isSyncRunning : Bool) (cfg : Config) (env : SyncEnv)
    (fs : LocalFS) : SyncNowOut :=
  if !cfg.enabled then ⟨⟨false, 0, some "Sync disabled"⟩, false, none⟩
  else
    match env.repositoriesRead with
    | .error msg => ⟨⟨false, 0, some msg⟩, false, none⟩
    | .ok raw =>
      let rcs := repositoryConfigs raw
      let m := syncMultipleRepositories cfg env rcs fs
      ⟨⟨m.result.overallSuccess, m.result.totalItemsUpdated,
        if m.result.errors.isEmpty then none
        else some (String.intercalate "; " m.result.errors)⟩,
        true, some m⟩

/-! ## Write sets and readiness (specification-side definitions used to
state idempotence) -/

/-- The materialisation writes a list of files can cause: one
`(localPath, content)` pair per file whose fetch yields non-empty
content. -/
def writePairsOfList (fc : String → Except String String) (dir : String)
    (files : List GitTreeItem) : List (String × String) :=
  files.filterMap fun f =>
    match fc f.path with
    | .error _ => none
    | .ok c =>
      if c = "" then none
      else some (joinPath dir (basename f.path), c)

/-- The write pairs one repository's pass can cause. -/
def repoWritePairs (cfg : Config) (p : ProviderEnv) :
    List (String × String) :=
  match p.tree with
  | .error _ => []
  | .ok t => writePairsOfList p.fileContent cfg.promptsDirectory
      (filterRelevantFiles cfg t)

/-- All write pairs a whole multi-repository pass can cause. -/
def allWritePairs (cfg : Config) (env : SyncEnv) (rcs : List RepoConfig) :
    List (String × String) :=
  rcs.flatMap fun rc => repoWritePairs cfg (env.providers rc.url)

/-- A collection of write pairs is consistent when any two pairs with the
same local path carry the same content (no basename collision with
differing content). -/
def ConsistentPairs (ps : List (String × String)) : Prop :=
  ∀ pr1 ∈ ps, ∀ pr2 ∈ ps, pr1.1 = pr2.1 → pr1.2 = pr2.2

/-- The file system already holds the content of every file the
materialiser would reach in this list (stopping, like `syncFiles`, at the
first throwing fetch). -/
def fsReady (fc : String → Except String String) (dir : String)
    (fs : LocalFS) : List GitTreeItem → Prop
  | [] => True
  | f :: rest =>
    match fc f.path with
    | .error _ => True
    | .ok c =>
      (c ≠ "" → fs (joinPath dir (basename f.path)) = some (some c)) ∧
      fsReady fc dir fs rest

/-- The file system is ready for one repository: whenever this repository's
pass would reach `syncFiles` (provider created, authentication passed,
URL parsed, tree fetched), the filtered files' contents are already on
disk. -/
def RepoReady (cfg : Config) (p : ProviderEnv) (fs : LocalFS) : Prop :=
  p.create = .ok () →
  (p.checkAuth1 = true ∨ p.checkAuth2 = true ∨ p.requestAuth = true) →
  (∃ pr, p.parseUrl = .ok pr) →
  ∀ t, p.tree = .ok t →
    fsReady p.fileContent cfg.promptsDirectory fs (filterRelevantFiles cfg t)

/-! ## Concrete fixtures (used by counterexamples and witnesses) -/

/-- The empty prompts directory. -/
def fsEmpty : LocalFS := fun _ => none

/-- Enabled configuration with all three sync flags on. -/
def cfgAll : Config := ⟨true, true, true, true, "/prompts"⟩

/-- Enabled configuration with all three sync flags off. -/
def cfgNone : Config := ⟨true, false, false, false, "/prompts"⟩

/-- Disabled configuration. -/
def cfgDisabled : Config := ⟨false, true, true, true, "/prompts"⟩

/-- A healthy provider serving a single file at `path` with content
`content`. -/
def provFile (path content : String) : ProviderEnv :=
  ⟨"github", .ok (), true, true, true, .ok ("o", "r"),
    .ok [⟨path, .blob⟩], fun _ => .ok content⟩

/-- Provider whose tree fetch throws. -/
def provTreeBoom : ProviderEnv :=
  ⟨"github", .ok (), true, true, true, .ok ("o", "r"),
    .error "boom", fun _ => .ok ""⟩

/-- Provider with two relevant files whose first content fetch throws. -/
def provFetchBoom : ProviderEnv :=
  ⟨"github", .ok (), true, true, true, .ok ("o", "r"),
    .ok [⟨"prompts/chatmode/a.md", .blob⟩, ⟨"prompts/chatmode/b.md", .blob⟩],
    fun q => if q = "prompts/chatmode/a.md" then .error "network down"
      else .ok "B"⟩

/-- Provider with three relevant files whose second content fetch throws
(the first succeeds with non-empty content, so one item is updated before
the error). -/
def provFetchBoom2 : ProviderEnv :=
  ⟨"github", .ok (), true, true, true, .ok ("o", "r"),
    .ok [⟨"prompts/chatmode/ok.md", .blob⟩, ⟨"prompts/chatmode/bad.md", .blob⟩,
      ⟨"prompts/chatmode/after.md", .blob⟩],
    fun q => if q = "prompts/chatmode/bad.md" then .error "network down"
      else .ok "A"⟩

/-- Provider with two relevant files sharing the basename `x.md` but
carrying different contents. -/
def provCollide : ProviderEnv :=
  ⟨"github", .ok (), true, true, true, .ok ("o", "r"),
    .ok [⟨"prompts/chatmode/a/x.md", .blob⟩,
      ⟨"prompts/chatmode/b/x.md", .blob⟩],
    fun q => if q = "prompts/chatmode/a/x.md" then .ok "A" else .ok "B"⟩

/-- Provider that is unauthenticated on both checks but succeeds on the
interactive request. -/
def provAuthRetry : ProviderEnv :=
  ⟨"github", .ok (), false, false, true, .ok ("o", "r"),
    .ok [⟨"prompts/chatmode/x.md", .blob⟩], fun _ => .ok "A"⟩

/-- Provider that is unauthenticated on both checks and whose interactive
request is refused. -/
def provAuthFail : ProviderEnv :=
  ⟨"azure", .ok (), false, false, false, .ok ("o", "r"),
    .ok [⟨"prompts/chatmode/x.md", .blob⟩], fun _ => .ok "A"⟩

/-- One healthy repository behind every URL. -/
def envA : SyncEnv :=
  ⟨fun _ => provFile "prompts/chatmode/x.md" "A",
    .ok ["https://github.com/a/one"]⟩

/-- Environment whose configuration read throws before the loop. -/
def envCfgBoom : SyncEnv :=
  ⟨fun _ => provFile "prompts/chatmode/x.md" "A", .error "config exploded"⟩

/-- Three repositories; the second one's tree fetch throws. -/
def envP3 : SyncEnv :=
  ⟨fun u =>
    if u = "https://github.com/p/one" then provFile "prompts/chatmode/a.md" "A"
    else if u = "https://github.com/p/two" then provTreeBoom
    else provFile "prompts/chatmode/c.md" "C",
    .ok ["https://github.com/p/one", "https://github.com/p/two",
      "https://github.com/p/three"]⟩

/-- Single repository whose first content fetch throws. -/
def envC1 : SyncEnv :=
  ⟨fun _ => provFetchBoom, .ok ["https://github.com/c/one"]⟩

/-- Single repository whose second content fetch throws after a
successful first file. -/
def envC1b : SyncEnv :=
  ⟨fun _ => provFetchBoom2, .ok ["https://github.com/c/oneb"]⟩

/-- Single repository with an intra-repository basename collision. -/
def envC7 : SyncEnv :=
  ⟨fun _ => provCollide, .ok ["https://github.com/c/seven"]⟩

/-- Two repositories serving the same basename `x.md` with contents `A`
and `B` respectively. -/
def envC8 : SyncEnv :=
  ⟨fun u =>
    if u = "https://github.com/r/one" then provFile "prompts/chatmode/x.md" "A"
    else provFile "prompts/prompt/x.md" "B",
    .ok ["https://github.com/r/one", "https://github.com/r/two"]⟩

/-- Single repository needing the interactive authentication retry. -/
def envC5 : SyncEnv :=
  ⟨fun _ => provAuthRetry, .ok ["https://github.com/c/five"]⟩

/-- Single repository whose authentication fails outright. -/
def envC5b : SyncEnv :=
  ⟨fun _ => provAuthFail, .ok ["https://dev.azure.com/c/five"]⟩

/-! ## Helper lemmas -/

lemma shouldUpdateFile_false_iff (fs : LocalFS) (localPath newContent : String) :
    shouldUpdateFile fs localPath newContent = false ↔
      fs localPath = some (some newContent) := by
  unfold shouldUpdateFile
  cases h : fs localPath with
  | none => simp
  | some o =>
    cases o with
    | none => simp
    | some existing => simp [decide_eq_false_iff_not]

lemma shouldUpdateFile_true_iff (fs : LocalFS) (localPath newContent : String) :
    shouldUpdateFile fs localPath newContent = true ↔
      (fs localPath = none ∨ fs localPath = some none ∨
        ∃ existing, fs localPath = some (some existing) ∧
          existing ≠ newContent) := by
  unfold shouldUpdateFile
  cases h : fs localPath with
  | none => simp
  | some o =>
    cases o with
    | none => simp
    | some existing => simp

lemma mem_dedupFirstAux :
    ∀ (l : List String) (seen : List String) (x : String),
      x ∈ dedupFirstAux seen l → x ∉ seen ∧ x ∈ l := by
  intro l
  induction l with
  | nil => intro seen x hx; simp [dedupFirstAux] at hx
  | cons a l ih =>
    intro seen x hx
    unfold dedupFirstAux at hx
    by_cases ha : a ∈ seen
    · simp only [if_pos ha] at hx
      rcases ih seen x hx with ⟨h1, h2⟩
      exact ⟨h1, List.mem_cons_of_mem _ h2⟩
    · simp only [if_neg ha] at hx
      rcases List.mem_cons.mp hx with h | h
      · subst h; exact ⟨ha, List.mem_cons_self _ _⟩
      · rcases ih _ x h with ⟨h1, h2⟩
        refine ⟨fun hs => h1 (List.mem_cons_of_mem _ hs),
          List.mem_cons_of_mem _ h2⟩

lemma nodup_dedupFirstAux :
    ∀ (l : List String) (seen : List String), (dedupFirstAux seen l).Nodup := by
  intro l
  induction l with
  | nil => intro seen; simp [dedupFirstAux]
  | cons a l ih =>
    intro seen
    unfold dedupFirstAux
    by_cases ha : a ∈ seen
    · simpa [if_pos ha] using ih seen
    · simp only [if_neg ha]
      refine List.Nodup.cons (fun hmem => ?_) (ih (a :: seen))
      exact (mem_dedupFirstAux _ _ _ hmem).1 (List.mem_cons_self _ _)

lemma length_dedupFirstAux_le :
    ∀ (l : List String) (seen : List String),
      (dedupFirstAux seen l).length ≤ l.length := by
  intro l
  induction l with
  | nil => intro seen; simp [dedupFirstAux]
  | cons a l ih =>
    intro seen
    unfold dedupFirstAux
    by_cases ha : a ∈ seen
    · simp only [if_pos ha]
      exact Nat.le_trans (ih seen) (Nat.le_succ _)
    · simp only [if_neg ha, List.length_cons]
      exact Nat.succ_le_succ (ih (a :: seen))

lemma sanitizeRepositories_length_le (raw : List String) :
    (sanitizeRepositories raw).length ≤ raw.length := by
  unfold sanitizeRepositories dedupFirst
  refine Nat.le_trans (length_dedupFirstAux_le _ _) ?_
  refine Nat.le_trans (List.length_filter_le _ _) ?_
  simp

/-! ## C3: provider resolution -/

/-- C3 (counterexample): the claim says a `gitlab.com` or `bitbucket.org`
URL resolves to `unknown`; `detectProvider` actually returns the dedicated
`gitlab` and `bitbucket` tags for such URLs. -/
theorem detectProvider_gitlab_not_unknown :
    detectProvider "https://gitlab.com/group/repo" = GitProvider.gitlab ∧
    detectProvider "https://gitlab.com/group/repo" ≠ GitProvider.unknown ∧
    detectProvider "https://bitbucket.org/team/repo" = GitProvider.bitbucket ∧
    detectProvider "https://bitbucket.org/team/repo" ≠ GitProvider.unknown := by
  decide

/-- C3 (amended): provider resolution classifies the cleaned URL by
substring containment, in order: `github` if it contains `github.com`;
`azure` if it contains `dev.azure.com` or `.visualstudio.com` (anywhere,
not only as a suffix); `gitlab` if it contains `gitlab.com` or `gitlab.`;
`bitbucket` if it contains `bitbucket.org`; `unknown` only when none of the
patterns occurs. -/
theorem detectProvider_classification :
    (∀ url : String,
      (detectProvider url = GitProvider.github ↔
        strContains (cleanRepoUrl url) "github.com" = true) ∧
      (detectProvider url = GitProvider.azure ↔
        (strContains (cleanRepoUrl url) "github.com" = false ∧
          (strContains (cleanRepoUrl url) "dev.azure.com" = true ∨
            strContains (cleanRepoUrl url) ".visualstudio.com" = true))) ∧
      (detectProvider url = GitProvider.gitlab ↔
        (strContains (cleanRepoUrl url) "github.com" = false ∧
          strContains (cleanRepoUrl url) "dev.azure.com" = false ∧
          strContains (cleanRepoUrl url) ".visualstudio.com" = false ∧
          (strContains (cleanRepoUrl url) "gitlab.com" = true ∨
            strContains (cleanRepoUrl url) "gitlab." = true))) ∧
      (detectProvider url = GitProvider.bitbucket ↔
        (strContains (cleanRepoUrl url) "github.com" = false ∧
          strContains (cleanRepoUrl url) "dev.azure.com" = false ∧
          strContains (cleanRepoUrl url) ".visualstudio.com" = false ∧
          strContains (cleanRepoUrl url) "gitlab.com" = false ∧
          strContains (cleanRepoUrl url) "gitlab." = false ∧
          strContains (cleanRepoUrl url) "bitbucket.org" = true)) ∧
      (detectProvider url = GitProvider.unknown ↔
        (strContains (cleanRepoUrl url) "github.com" = false ∧
          strContains (cleanRepoUrl url) "dev.azure.com" = false ∧
          strContains (cleanRepoUrl url) ".visualstudio.com" = false ∧
          strContains (cleanRepoUrl url) "gitlab.com" = false ∧
          strContains (cleanRepoUrl url) "gitlab." = false ∧
          strContains (cleanRepoUrl url) "bitbucket.org" = false))) ∧
    detectProvider "https://github.com/o/r" = GitProvider.github ∧
    detectProvider "https://dev.azure.com/org/proj/_git/r" = GitProvider.azure ∧
    detectProvider "https://org.visualstudio.com/proj/_git/r" =
      GitProvider.azure ∧
    detectProvider "https://example.com/a/b" = GitProvider.unknown := by
  refine ⟨fun url => ?_, by decide, by decide, by decide, by decide⟩
  cases h1 : strContains (cleanRepoUrl url) "github.com" <;>
    cases h2 : strContains (cleanRepoUrl url) "dev.azure.com" <;>
    cases h3 : strContains (cleanRepoUrl url) ".visualstudio.com" <;>
    cases h4 : strContains (cleanRepoUrl url) "gitlab.com" <;>
    cases h5 : strContains (cleanRepoUrl url) "gitlab." <;>
    cases h6 : strContains (cleanRepoUrl url) "bitbucket.org" <;>
    simp_all [detectProvider]

/-- C3 (witness): the classification applied at a concrete URL. -/
theorem detectProvider_classification_witness :
    detectProvider "https://github.com/nventive/PromptVault" =
      GitProvider.github :=
  ((detectProvider_classification.1
    "https://github.com/nventive/PromptVault").1).mpr (by decide)

/-! ## C10: repository-list sanitisation -/

/-- C10: the repositories getter trims entries, drops blank entries and
de-duplicates only exact strings (`"url|main"` and `"url"` stay distinct);
the duplicate warning fires exactly when the sanitised list is shorter than
the raw one, so a blank entry triggers it without any duplicate present. -/
theorem repositories_sanitisation :
    (∀ raw : List String, (sanitizeRepositories raw).Nodup ∧
      ∀ s ∈ sanitizeRepositories raw,
        0 < s.length ∧ ∃ r ∈ raw, jsTrim r = s) ∧
    sanitizeRepositories
        ["https://github.com/a/b|main", "https://github.com/a/b"] =
      ["https://github.com/a/b|main", "https://github.com/a/b"] ∧
    (∀ raw : List String, repositoriesWarning raw = true ↔
      (sanitizeRepositories raw).length < raw.length) ∧
    repositoriesWarning ["https://github.com/a/b", "   "] = true ∧
    sanitizeRepositories ["https://github.com/a/b", "   "] =
      ["https://github.com/a/b"] := by
  refine ⟨fun raw => ⟨nodup_dedupFirstAux _ _, fun s hs => ?_⟩,
    by decide, fun raw => ?_, by decide, by decide⟩
  · have hmem := (mem_dedupFirstAux _ _ _ hs).2
    rcases List.mem_filter.mp hmem with ⟨hmap, hlen⟩
    rcases List.mem_map.mp hmap with ⟨r, hr, hrs⟩
    refine ⟨by simpa using hlen, r, hr, hrs⟩
  · unfold repositoriesWarning
    have hle := sanitizeRepositories_length_le raw
    constructor
    · intro h
      have hne : (sanitizeRepositories raw).length ≠ raw.length := by
        simpa using h
      exact Nat.lt_of_le_of_ne hle hne
    · intro h
      simpa using Nat.ne_of_lt h

/-- C10 (witness): the sanitisation facts applied at a concrete raw
list. -/
theorem repositories_sanitisation_witness :
    (sanitizeRepositories ["https://github.com/a/b", "   "]).Nodup ∧
    (repositoriesWarning ["https://github.com/a/b", "   "] = true ↔
      (sanitizeRepositories ["https://github.com/a/b", "   "]).length <
        (["https://github.com/a/b", "   "] : List String).length) :=
  ⟨(repositories_sanitisation.1 ["https://github.com/a/b", "   "]).1,
    repositories_sanitisation.2.2.1 ["https://github.com/a/b", "   "]⟩

/-! ## C2: re-entrancy -/

/-- C2 (counterexample): the claim says a guard flag at the top of
`syncNow` drops a request arriving while a sync is already running.  With
the in-flight flag set, `syncNow` nevertheless performs a full repository
pass: the tree is fetched, the file content is fetched, and an item is
updated — nothing is dropped. -/
theorem syncNow_while_running_not_dropped :
    (syncNow true cfgAll envA fsEmpty).result =
      ⟨true, 1, none⟩ ∧
    ((syncNow true cfgAll envA fsEmpty).multi.map fun m => m.treeFetches) =
      some ["https://github.com/a/one"] ∧
    ((syncNow true cfgAll envA fsEmpty).multi.map fun m => m.fetched) =
      some [("https://github.com/a/one", "prompts/chatmode/x.md")] := by
  decide

/-- C2 (amended): `syncNow` consults no "is a sync currently running"
state at all — its behaviour is independent of whether another pass is in
flight, and the only top-of-function early return is the `enabled`
check. -/
theorem syncNow_ignores_running_state :
    (∀ (isSyncRunning : Bool) (cfg : Config) (env : SyncEnv) (fs : LocalFS),
      syncNow isSyncRunning cfg env fs = syncNow false cfg env fs) ∧
    (∀ (isSyncRunning : Bool) (cfg : Config) (env : SyncEnv) (fs : LocalFS),
      cfg.enabled = false →
      syncNow isSyncRunning cfg env fs =
        ⟨⟨false, 0, some "Sync disabled"⟩, false, none⟩) :=
  ⟨fun _ _ _ _ => rfl,
    fun _ cfg env fs h => by simp [syncNow, h]⟩

/-- C2 (witness): the disabled early return at a concrete input. -/
theorem syncNow_ignores_running_state_witness :
    syncNow true cfgDisabled envA fsEmpty =
      ⟨⟨false, 0, some "Sync disabled"⟩, false, none⟩ :=
  syncNow_ignores_running_state.2 true cfgDisabled envA fsEmpty rfl

/-! ## C9: outer catch and scheduler re-arming -/

/-- C9: with sync enabled, a configuration read that throws before the
repository loop is caught once at the top of `syncNow` and reported as a
total failure carrying the exception's message, without invoking
`scheduleNextSync`; `scheduleNextSync` is invoked exactly on the normal
aggregation path (the configuration read succeeded). -/
theorem syncNow_outer_catch :
    ∀ (running : Bool) (cfg : Config) (env : SyncEnv) (fs : LocalFS),
      cfg.enabled = true →
      (∀ msg, env.repositoriesRead = .error msg →
        syncNow running cfg env fs = ⟨⟨false, 0, some msg⟩, false, none⟩) ∧
      ((syncNow running cfg env fs).scheduled = true ↔
        ∃ raw, env.repositoriesRead = .ok raw) := by
  intro running cfg env fs hEnabled
  constructor
  · intro msg h
    simp [syncNow, hEnabled, h]
  · cases hr : env.repositoriesRead with
    | error msg => simp [syncNow, hEnabled, hr]
    | ok raw => simp [syncNow, hEnabled, hr]

/-- C9 (witness): the outer catch at a concrete throwing configuration
read. -/
theorem syncNow_outer_catch_witness :
    syncNow false cfgAll envCfgBoom fsEmpty =
      ⟨⟨false, 0, some "config exploded"⟩, false, none⟩ :=
  (syncNow_outer_catch false cfgAll envCfgBoom fsEmpty rfl).1
    "config exploded" rfl

/-! ## Shape lemmas for the per-repository pass -/

lemma repoPassAfterAuth_spec (cfg : Config) (p : ProviderEnv) (url : String)
    (fs : LocalFS) (an rq : Bool) :
    ((repoPassAfterAuth cfg p url fs an rq).outcome.success = false ∧
      (repoPassAfterAuth cfg p url fs an rq).outcome.itemsUpdated = 0 ∧
      (repoPassAfterAuth cfg p url fs an rq).fs = fs) ∨
    ((∃ pr, p.parseUrl = Except.ok pr) ∧
      ∃ t, p.tree = Except.ok t ∧ filterRelevantFiles cfg t ≠ [] ∧
        (repoPassAfterAuth cfg p url fs an rq).outcome =
          ⟨url, true, (syncFiles p.fileContent cfg.promptsDirectory
            (filterRelevantFiles cfg t) fs).itemsUpdated, none⟩ ∧
        (repoPassAfterAuth cfg p url fs an rq).fs =
          (syncFiles p.fileContent cfg.promptsDirectory
            (filterRelevantFiles cfg t) fs).fs) := by
  unfold repoPassAfterAuth
  cases hp : p.parseUrl with
  | error msg => left; simp [repoFailure]
  | ok pr =>
    cases ht : p.tree with
    | error msg => left; simp [repoFailure]
    | ok t =>
      by_cases he : (filterRelevantFiles cfg t).isEmpty = true
      · left; simp [he]
      · right
        refine ⟨⟨pr, rfl⟩, t, rfl, ?_, ?_, ?_⟩
        · simpa [List.isEmpty_iff] using he
        · simp [he]
        · simp [he]

lemma syncOneRepository_authPass (cfg : Config) (env : SyncEnv)
    (rc : RepoConfig) (fs : LocalFS) (u : Unit)
    (hc : (env.providers rc.url).create = Except.ok u)
    (ha : (env.providers rc.url).checkAuth1 = true ∨
      (env.providers rc.url).checkAuth2 = true ∨
      (env.providers rc.url).requestAuth = true) :
    ∃ an rq : Bool, syncOneRepository cfg env rc fs =
      repoPassAfterAuth cfg (env.providers rc.url) rc.url fs an rq := by
  cases h1 : (env.providers rc.url).checkAuth1 <;>
    cases h2 : (env.providers rc.url).checkAuth2 <;>
    cases h3 : (env.providers rc.url).requestAuth
  · simp [h1, h2, h3] at ha
  · exact ⟨true, true, by simp [syncOneRepository, hc, h1, h2, h3]⟩
  · exact ⟨true, false, by simp [syncOneRepository, hc, h1, h2, h3]⟩
  · exact ⟨true, false, by simp [syncOneRepository, hc, h1, h2, h3]⟩
  · exact ⟨false, false, by simp [syncOneRepository, hc, h1, h2, h3]⟩
  · exact ⟨false, false, by simp [syncOneRepository, hc, h1, h2, h3]⟩
  · exact ⟨false, false, by simp [syncOneRepository, hc, h1, h2, h3]⟩
  · exact ⟨false, false, by simp [syncOneRepository, hc, h1, h2, h3]⟩

lemma syncOneRepository_spec (cfg : Config) (env : SyncEnv)
    (rc : RepoConfig) (fs : LocalFS) :
    ((syncOneRepository cfg env rc fs).outcome.success = false ∧
      (syncOneRepository cfg env rc fs).outcome.itemsUpdated = 0 ∧
      (syncOneRepository cfg env rc fs).fs = fs) ∨
    ((env.providers rc.url).create = Except.ok () ∧
      ((env.providers rc.url).checkAuth1 = true ∨
        (env.providers rc.url).checkAuth2 = true ∨
        (env.providers rc.url).requestAuth = true) ∧
      (∃ pr, (env.providers rc.url).parseUrl = Except.ok pr) ∧
      ∃ t, (env.providers rc.url).tree = Except.ok t ∧
        filterRelevantFiles cfg t ≠ [] ∧
        (syncOneRepository cfg env rc fs).outcome =
          ⟨rc.url, true, (syncFiles (env.providers rc.url).fileContent
            cfg.promptsDirectory (filterRelevantFiles cfg t)
            fs).itemsUpdated, none⟩ ∧
        (syncOneRepository cfg env rc fs).fs =
          (syncFiles (env.providers rc.url).fileContent cfg.promptsDirectory
            (filterRelevantFiles cfg t) fs).fs) := by
  cases hc : (env.providers rc.url).create with
  | error msg => left; simp [syncOneRepository, hc, repoFailure]
  | ok u =>
    cases u
    by_cases ha : (env.providers rc.url).checkAuth1 = true ∨
      (env.providers rc.url).checkAuth2 = true ∨
      (env.providers rc.url).requestAuth = true
    · obtain ⟨an, rq, heq⟩ := syncOneRepository_authPass cfg env rc fs () hc ha
      rcases repoPassAfterAuth_spec cfg (env.providers rc.url) rc.url fs an rq
        with h | ⟨hpr, t, ht, hne, ho, hfs⟩
      · left; rw [heq]; exact h
      · right; exact ⟨rfl, ha, hpr, t, ht, hne, heq ▸ ho, heq ▸ hfs⟩
    · simp only [not_or, Bool.not_eq_true] at ha
      rcases ha with ⟨h1, h2, h3⟩
      left
      simp [syncOneRepository, hc, h1, h2, h3, repoFailure]

/-! ## C4: aggregation -/

/-- C4: `overallSuccess` is exactly "every repository outcome succeeded"
and `totalItemsUpdated` is the sum of the per-repository counts; in the P3
scenario (three repositories, the second throwing on tree fetch) the
outcomes are `[success, fail, success]`, the total counts only the first
and third repositories, and `errors` has exactly one entry naming the
second repository. -/
theorem multiRepo_aggregation :
    (∀ (cfg : Config) (env : SyncEnv) (rcs : List RepoConfig) (fs : LocalFS),
      (syncMultipleRepositories cfg env rcs fs).result.overallSuccess =
        (syncMultipleRepositories cfg env rcs fs).result.repositories.all
          (fun o => o.success) ∧
      (syncMultipleRepositories cfg env rcs fs).result.totalItemsUpdated =
        ((syncMultipleRepositories cfg env rcs fs).result.repositories.map
          (fun o => o.itemsUpdated)).sum) ∧
    ((syncMultipleRepositories cfgAll envP3
        [⟨"https://github.com/p/one", "main"⟩,
          ⟨"https://github.com/p/two", "main"⟩,
          ⟨"https://github.com/p/three", "main"⟩]
        fsEmpty).result.repositories.map (fun o => o.success) =
      [true, false, true] ∧
    (syncMultipleRepositories cfgAll envP3
        [⟨"https://github.com/p/one", "main"⟩,
          ⟨"https://github.com/p/two", "main"⟩,
          ⟨"https://github.com/p/three", "main"⟩]
        fsEmpty).result.repositories.map (fun o => o.itemsUpdated) =
      [1, 0, 1] ∧
    (syncMultipleRepositories cfgAll envP3
        [⟨"https://github.com/p/one", "main"⟩,
          ⟨"https://github.com/p/two", "main"⟩,
          ⟨"https://github.com/p/three", "main"⟩]
        fsEmpty).result.overallSuccess = false ∧
    (syncMultipleRepositories cfgAll envP3
        [⟨"https://github.com/p/one", "main"⟩,
          ⟨"https://github.com/p/two", "main"⟩,
          ⟨"https://github.com/p/three", "main"⟩]
        fsEmpty).result.totalItemsUpdated = 1 + 1 ∧
    (syncMultipleRepositories cfgAll envP3
        [⟨"https://github.com/p/one", "main"⟩,
          ⟨"https://github.com/p/two", "main"⟩,
          ⟨"https://github.com/p/three", "main"⟩]
        fsEmpty).result.errors = ["https://github.com/p/two: boom"]) := by
  constructor
  · intro cfg env rcs
    induction rcs with
    | nil => intro fs; simp [syncMultipleRepositories]
    | cons rc rest ih =>
      intro fs
      rcases syncOneRepository_spec cfg env rc fs with
        ⟨hs, hi, _⟩ | ⟨_, _, _, t, _, _, ho, _⟩
      · constructor
        · simp [syncMultipleRepositories, hs,
            (ih ((syncOneRepository cfg env rc fs).fs)).1]
        · simp [syncMultipleRepositories, hs, hi,
            (ih ((syncOneRepository cfg env rc fs).fs)).2]
      · constructor
        · simp [syncMultipleRepositories, ho,
            (ih ((syncOneRepository cfg env rc fs).fs)).1]
        · simp [syncMultipleRepositories, ho,
            (ih ((syncOneRepository cfg env rc fs).fs)).2]
  · refine ⟨by decide, by decide, by decide, by decide, by decide⟩

/-! ## C1: content-fetch error handling -/

/-- C1 (counterexample): with one repository whose first relevant file's
content fetch throws, the remaining file is indeed not fetched, but the
repository's outcome is recorded as a success (`success = true`, no error
entry) — not as the failure the claim states. -/
theorem fetchError_outcome_counterexample :
    (syncMultipleRepositories cfgAll envC1
      [⟨"https://github.com/c/one", "main"⟩]
      fsEmpty).result.repositories =
        [⟨"https://github.com/c/one", true, 0, none⟩] ∧
    (syncMultipleRepositories cfgAll envC1
      [⟨"https://github.com/c/one", "main"⟩] fsEmpty).fetched =
        [("https://github.com/c/one", "prompts/chatmode/a.md")] ∧
    (syncMultipleRepositories cfgAll envC1
      [⟨"https://github.com/c/one", "main"⟩]
      fsEmpty).result.overallSuccess = true ∧
    (syncMultipleRepositories cfgAll envC1
      [⟨"https://github.com/c/one", "main"⟩] fsEmpty).result.errors = [] := by
  decide

lemma syncFiles_stop_at_error (fc : String → Except String String)
    (dir : String) :
    ∀ (pre : List GitTreeItem) (f : GitTreeItem) (post : List GitTreeItem)
      (fs : LocalFS) (e : String),
      (∀ g ∈ pre, ∃ c, fc g.path = Except.ok c) →
      fc f.path = Except.error e →
      syncFiles fc dir (pre ++ f :: post) fs =
        ⟨(syncFiles fc dir pre fs).itemsUpdated,
          (syncFiles fc dir pre fs).fs,
          (syncFiles fc dir pre fs).fetched ++ [f.path]⟩ := by
  intro pre
  induction pre with
  | nil => intro f post fs e _ hf; simp [syncFiles, hf]
  | cons g pre ih =>
    intro f post fs e hpre hf
    obtain ⟨cg, hg⟩ := hpre g (List.mem_cons_self _ _)
    have hpre' : ∀ x ∈ pre, ∃ c, fc x.path = Except.ok c :=
      fun x hx => hpre x (List.mem_cons_of_mem _ hx)
    by_cases hcg : cg = ""
    · have := ih f post fs e hpre' hf
      simp [syncFiles, hg, hcg, this]
    · cases hs : shouldUpdateFile fs (joinPath dir (basename g.path)) cg with
      | true =>
        have := ih f post (fs.write (joinPath dir (basename g.path)) cg) e
          hpre' hf
        simp [syncFiles, hg, hcg, hs, this]
      | false =>
        have := ih f post fs e hpre' hf
        simp [syncFiles, hg, hcg, hs, this]

/-- C1 (amended): a content fetch throwing at any position of the
repository's filtered file list stops the remaining files (no further
fetch occurs) and processing continues with the next configured
repositories from the partially-written file system — but the
repository's outcome is recorded as a success (`success = true`) carrying
the count of items updated before the error, not as a failure. -/
theorem fetchError_stops_remaining_files :
    ∀ (cfg : Config) (env : SyncEnv) (rc : RepoConfig)
      (rest : List RepoConfig) (fs : LocalFS) (pr : String × String)
      (t : List GitTreeItem) (pre : List GitTreeItem) (f : GitTreeItem)
      (post : List GitTreeItem) (e : String),
      (env.providers rc.url).create = Except.ok () →
      (env.providers rc.url).checkAuth1 = true →
      (env.providers rc.url).parseUrl = Except.ok pr →
      (env.providers rc.url).tree = Except.ok t →
      filterRelevantFiles cfg t = pre ++ f :: post →
      (∀ g ∈ pre, ∃ c,
        (env.providers rc.url).fileContent g.path = Except.ok c) →
      (env.providers rc.url).fileContent f.path = Except.error e →
      (syncMultipleRepositories cfg env (rc :: rest) fs).result.repositories =
        ⟨rc.url, true,
          (syncFiles (env.providers rc.url).fileContent cfg.promptsDirectory
            pre fs).itemsUpdated, none⟩ ::
          (syncMultipleRepositories cfg env rest
            ((syncFiles (env.providers rc.url).fileContent
              cfg.promptsDirectory pre fs).fs)).result.repositories ∧
      (syncMultipleRepositories cfg env (rc :: rest) fs).fetched =
        ((syncFiles (env.providers rc.url).fileContent cfg.promptsDirectory
            pre fs).fetched ++ [f.path]).map (fun p => (rc.url, p)) ++
          (syncMultipleRepositories cfg env rest
            ((syncFiles (env.providers rc.url).fileContent
              cfg.promptsDirectory pre fs).fs)).fetched ∧
      (syncMultipleRepositories cfg env (rc :: rest) fs).fs =
        (syncMultipleRepositories cfg env rest
          ((syncFiles (env.providers rc.url).fileContent cfg.promptsDirectory
            pre fs).fs)).fs := by
  intro cfg env rc rest fs pr t pre f post e hc h1 hp ht hrel hpre hf
  have hstop := syncFiles_stop_at_error
    (env.providers rc.url).fileContent cfg.promptsDirectory
    pre f post fs e hpre hf
  have hone : syncOneRepository cfg env rc fs =
      ⟨⟨rc.url, true,
        (syncFiles (env.providers rc.url).fileContent cfg.promptsDirectory
          pre fs).itemsUpdated, none⟩, [],
        (syncFiles (env.providers rc.url).fileContent cfg.promptsDirectory
          pre fs).fs,
        (syncFiles (env.providers rc.url).fileContent cfg.promptsDirectory
          pre fs).fetched ++ [f.path], false, false, true⟩ := by
    simp [syncOneRepository, hc, h1, repoPassAfterAuth, hp, ht, hrel, hstop]
  refine ⟨?_, ?_, ?_⟩ <;> simp [syncMultipleRepositories, hone]

/-- C1 (witness): the concrete repository whose second fetch throws — the
outcome is a success carrying the one item updated before the error, the
third file is never fetched, and the partial write survives. -/
theorem fetchError_stops_remaining_files_witness :
    ((syncMultipleRepositories cfgAll envC1b
      [⟨"https://github.com/c/oneb", "main"⟩]
      fsEmpty).result.repositories =
      ⟨"https://github.com/c/oneb", true,
        (syncFiles provFetchBoom2.fileContent cfgAll.promptsDirectory
          [⟨"prompts/chatmode/ok.md", .blob⟩] fsEmpty).itemsUpdated, none⟩ ::
        (syncMultipleRepositories cfgAll envC1b []
          ((syncFiles provFetchBoom2.fileContent cfgAll.promptsDirectory
            [⟨"prompts/chatmode/ok.md", .blob⟩]
            fsEmpty).fs)).result.repositories) ∧
    (syncFiles provFetchBoom2.fileContent cfgAll.promptsDirectory
      [⟨"prompts/chatmode/ok.md", .blob⟩] fsEmpty).itemsUpdated = 1 ∧
    (syncMultipleRepositories cfgAll envC1b
      [⟨"https://github.com/c/oneb", "main"⟩] fsEmpty).fetched =
      [("https://github.com/c/oneb", "prompts/chatmode/ok.md"),
        ("https://github.com/c/oneb", "prompts/chatmode/bad.md")] :=
  ⟨(fetchError_stops_remaining_files cfgAll envC1b
      ⟨"https://github.com/c/oneb", "main"⟩ [] fsEmpty ("o", "r")
      [⟨"prompts/chatmode/ok.md", .blob⟩, ⟨"prompts/chatmode/bad.md", .blob⟩,
        ⟨"prompts/chatmode/after.md", .blob⟩]
      [⟨"prompts/chatmode/ok.md", .blob⟩] ⟨"prompts/chatmode/bad.md", .blob⟩
      [⟨"prompts/chatmode/after.md", .blob⟩] "network down"
      rfl rfl rfl rfl (by decide)
      (fun g hg => by rw [List.mem_singleton] at hg; subst hg; exact ⟨"A", rfl⟩)
      rfl).1,
    by decide, by decide⟩

/-! ## C5: authentication retry ladder -/

/-- C5: when the first authentication check fails the orchestrator emits
the authentication-required notification and re-checks; only if the
re-check also fails is `requestAuthentication` called (its single call
site, hence exactly once per repository per run); a successful request
lets the repository proceed to the tree fetch, while a refused request
records the failure `"<provider> authentication failed"` and the run
continues with the next repository. -/
theorem auth_retry_once :
    ∀ (cfg : Config) (env : SyncEnv) (rc : RepoConfig)
      (rest : List RepoConfig) (fs : LocalFS),
      (env.providers rc.url).create = Except.ok () →
      ((env.providers rc.url).checkAuth1 = false →
        (syncOneRepository cfg env rc fs).authNotice = true) ∧
      ((env.providers rc.url).checkAuth1 = false →
        (env.providers rc.url).checkAuth2 = true →
        (syncOneRepository cfg env rc fs).requestAuthCalled = false) ∧
      ((env.providers rc.url).checkAuth1 = false →
        (env.providers rc.url).checkAuth2 = false →
        (syncOneRepository cfg env rc fs).requestAuthCalled = true) ∧
      ((env.providers rc.url).checkAuth1 = false →
        (env.providers rc.url).checkAuth2 = false →
        (env.providers rc.url).requestAuth = true →
        ∀ pr, (env.providers rc.url).parseUrl = Except.ok pr →
          (syncOneRepository cfg env rc fs).treeFetched = true) ∧
      ((env.providers rc.url).checkAuth1 = false →
        (env.providers rc.url).checkAuth2 = false →
        (env.providers rc.url).requestAuth = false →
        (syncOneRepository cfg env rc fs).outcome =
          ⟨rc.url, false, 0,
            some ((env.providers rc.url).providerName ++
              " authentication failed")⟩ ∧
        (syncOneRepository cfg env rc fs).fs = fs ∧
        (syncOneRepository cfg env rc fs).treeFetched = false) ∧
      ((syncMultipleRepositories cfg env (rc :: rest) fs).result.repositories =
        (syncOneRepository cfg env rc fs).outcome ::
          (syncMultipleRepositories cfg env rest
            (syncOneRepository cfg env rc fs).fs).result.repositories) := by
  intro cfg env rc rest fs hc
  refine ⟨?_, ?_, ?_, ?_, ?_, rfl⟩
  · intro h1
    cases h2 : (env.providers rc.url).checkAuth2 <;>
      cases h3 : (env.providers rc.url).requestAuth <;>
      simp [syncOneRepository, hc, h1, h2, h3, repoFailure,
        repoPassAfterAuth] <;>
      cases hp : (env.providers rc.url).parseUrl <;>
      simp [repoFailure] <;>
      cases ht : (env.providers rc.url).tree <;>
      simp [repoFailure] <;>
      split <;> simp
  · intro h1 h2
    simp [syncOneRepository, hc, h1, h2, repoPassAfterAuth]
    cases hp : (env.providers rc.url).parseUrl <;> simp [repoFailure]
    cases ht : (env.providers rc.url).tree <;> simp [repoFailure]
    split <;> simp
  · intro h1 h2
    cases h3 : (env.providers rc.url).requestAuth <;>
      simp [syncOneRepository, hc, h1, h2, h3, repoFailure,
        repoPassAfterAuth] <;>
      cases hp : (env.providers rc.url).parseUrl <;>
      simp [repoFailure] <;>
      cases ht : (env.providers rc.url).tree <;>
      simp [repoFailure] <;>
      split <;> simp
  · intro h1 h2 h3 pr hp
    simp [syncOneRepository, hc, h1, h2, h3, repoPassAfterAuth, hp]
    cases ht : (env.providers rc.url).tree <;> simp [repoFailure]
    split <;> simp
  · intro h1 h2 h3
    simp [syncOneRepository, hc, h1, h2, h3, repoFailure]

/-- C5 (witness): the retry ladder at concrete repositories — the
retry-then-succeed provider reaches the tree fetch after one interactive
request, and the refused provider records the azure authentication
failure. -/
theorem auth_retry_once_witness :
    (syncOneRepository cfgAll envC5 ⟨"https://github.com/c/five", "main"⟩
      fsEmpty).authNotice = true ∧
    (syncOneRepository cfgAll envC5 ⟨"https://github.com/c/five", "main"⟩
      fsEmpty).requestAuthCalled = true ∧
    (syncOneRepository cfgAll envC5 ⟨"https://github.com/c/five", "main"⟩
      fsEmpty).treeFetched = true ∧
    (syncOneRepository cfgAll envC5b ⟨"https://dev.azure.com/c/five", "main"⟩
      fsEmpty).outcome =
      ⟨"https://dev.azure.com/c/five", false, 0,
        some "azure authentication failed"⟩ :=
  ⟨(auth_retry_once cfgAll envC5 ⟨"https://github.com/c/five", "main"⟩ []
      fsEmpty rfl).1 rfl,
    (auth_retry_once cfgAll envC5 ⟨"https://github.com/c/five", "main"⟩ []
      fsEmpty rfl).2.2.1 rfl rfl,
    (auth_retry_once cfgAll envC5 ⟨"https://github.com/c/five", "main"⟩ []
      fsEmpty rfl).2.2.2.1 rfl rfl rfl ("o", "r") rfl,
    ((auth_retry_once cfgAll envC5b ⟨"https://dev.azure.com/c/five", "main"⟩
      [] fsEmpty rfl).2.2.2.2.1 rfl rfl rfl).1⟩

/-! ## C6: empty filtered set -/

/-- C6: when the filtered tree is empty (in particular whenever all three
sync flags are off) the repository records a failure whose error text
names the three expected path prefixes, performs no per-file content
fetch, leaves the file system untouched, and processing continues with the
next repository. -/
theorem empty_filter_failure :
    (∀ (cfg : Config) (t : List GitTreeItem),
      cfg.syncChatmode = false → cfg.syncInstructions = false →
      cfg.syncPrompt = false → filterRelevantFiles cfg t = []) ∧
    (strContains noRelevantFilesMessage REPO_SYNC_CHAT_MODE_PATH = true ∧
      strContains noRelevantFilesMessage REPO_SYNC_INSTRUCTIONS_PATH = true ∧
      strContains noRelevantFilesMessage REPO_SYNC_PROMPT_PATH = true) ∧
    (∀ (cfg : Config) (env : SyncEnv) (rc : RepoConfig)
        (rest : List RepoConfig) (fs : LocalFS),
      (env.providers rc.url).create = Except.ok () →
      ((env.providers rc.url).checkAuth1 = true ∨
        (env.providers rc.url).checkAuth2 = true ∨
        (env.providers rc.url).requestAuth = true) →
      ∀ (pr : String × String) (t : List GitTreeItem),
        (env.providers rc.url).parseUrl = Except.ok pr →
        (env.providers rc.url).tree = Except.ok t →
        filterRelevantFiles cfg t = [] →
        (syncOneRepository cfg env rc fs).outcome =
          ⟨rc.url, false, 0, some noRelevantFilesMessage⟩ ∧
        (syncOneRepository cfg env rc fs).errorsAppend =
          [rc.url ++ ": No relevant files found"] ∧
        (syncOneRepository cfg env rc fs).fetched = [] ∧
        (syncOneRepository cfg env rc fs).fs = fs ∧
        (syncMultipleRepositories cfg env (rc :: rest)
            fs).result.repositories =
          (syncOneRepository cfg env rc fs).outcome ::
            (syncMultipleRepositories cfg env rest
              fs).result.repositories) := by
  refine ⟨?_, ⟨by decide, by decide, by decide⟩, ?_⟩
  · intro cfg t hcm hins hpr
    simp [filterRelevantFiles, hcm, hins, hpr]
  · intro cfg env rc rest fs hc ha pr t hp ht hrel
    obtain ⟨an, rq, heq⟩ := syncOneRepository_authPass cfg env rc fs () hc ha
    have hone : syncOneRepository cfg env rc fs =
        ⟨⟨rc.url, false, 0, some noRelevantFilesMessage⟩,
          [rc.url ++ ": No relevant files found"], fs, [], an, rq, true⟩ := by
      rw [heq]
      simp [repoPassAfterAuth, hp, ht, hrel]
    refine ⟨?_, ?_, ?_, ?_, ?_⟩ <;>
      simp [syncMultipleRepositories, hone]

/-- C6 (witness): with all three flags off, the concrete repository pass
records the remediation failure and fetches nothing. -/
theorem empty_filter_failure_witness :
    (syncOneRepository cfgNone envA ⟨"https://github.com/a/one", "main"⟩
      fsEmpty).outcome =
      ⟨"https://github.com/a/one", false, 0,
        some noRelevantFilesMessage⟩ ∧
    (syncOneRepository cfgNone envA ⟨"https://github.com/a/one", "main"⟩
      fsEmpty).fetched = [] :=
  ⟨(empty_filter_failure.2.2 cfgNone envA
      ⟨"https://github.com/a/one", "main"⟩ [] fsEmpty rfl (Or.inl rfl)
      ("o", "r") [⟨"prompts/chatmode/x.md", .blob⟩] rfl rfl
      (empty_filter_failure.1 cfgNone _ rfl rfl rfl)).1,
    (empty_filter_failure.2.2 cfgNone envA
      ⟨"https://github.com/a/one", "main"⟩ [] fsEmpty rfl (Or.inl rfl)
      ("o", "r") [⟨"prompts/chatmode/x.md", .blob⟩] rfl rfl
      (empty_filter_failure.1 cfgNone _ rfl rfl rfl)).2.2.1⟩

/-! ## C8: flattening, last processed repository wins -/

lemma syncFiles_single_lookup (fc : String → Except String String)
    (dir : String) (f : GitTreeItem) (fs : LocalFS) (c : String)
    (hok : fc f.path = Except.ok c) (hne : c ≠ "") :
    ((syncFiles fc dir [f] fs).fs)
      (joinPath dir (basename f.path)) = some (some c) := by
  cases hs : shouldUpdateFile fs (joinPath dir (basename f.path)) c with
  | true => simp [syncFiles, hok, hne, hs, LocalFS.write]
  | false =>
    have hcur := (shouldUpdateFile_false_iff fs _ c).mp hs
    simp [syncFiles, hok, hne, hs, hcur]

/-- C8: given two configured repositories each contributing one filtered
file with the same basename, after the sequential pass the single local
file under that basename holds the content fetched from the repository
processed last in configuration order. -/
theorem flattening_last_wins :
    ∀ (cfg : Config) (env : SyncEnv) (rc1 rc2 : RepoConfig) (fs : LocalFS)
      (pr1 pr2 : String × String) (t1 t2 : List GitTreeItem)
      (f1 f2 : GitTreeItem) (c1 c2 : String),
      (env.providers rc1.url).create = Except.ok () →
      (env.providers rc1.url).checkAuth1 = true →
      (env.providers rc1.url).parseUrl = Except.ok pr1 →
      (env.providers rc1.url).tree = Except.ok t1 →
      filterRelevantFiles cfg t1 = [f1] →
      (env.providers rc1.url).fileContent f1.path = Except.ok c1 →
      c1 ≠ "" →
      (env.providers rc2.url).create = Except.ok () →
      (env.providers rc2.url).checkAuth1 = true →
      (env.providers rc2.url).parseUrl = Except.ok pr2 →
      (env.providers rc2.url).tree = Except.ok t2 →
      filterRelevantFiles cfg t2 = [f2] →
      (env.providers rc2.url).fileContent f2.path = Except.ok c2 →
      c2 ≠ "" →
      basename f1.path = basename f2.path →
      (syncMultipleRepositories cfg env [rc1, rc2] fs).fs
        (joinPath cfg.promptsDirectory (basename f2.path)) =
        some (some c2) := by
  intro cfg env rc1 rc2 fs pr1 pr2 t1 t2 f1 f2 c1 c2
  intro hc1 ha1 hp1 ht1 hrel1 hok1 hne1 hc2 ha2 hp2 ht2 hrel2 hok2 hne2 hbn
  have h2eq : (syncOneRepository cfg env rc2
      ((syncOneRepository cfg env rc1 fs).fs)).fs =
      (syncFiles (env.providers rc2.url).fileContent cfg.promptsDirectory
        [f2] ((syncOneRepository cfg env rc1 fs).fs)).fs := by
    simp [syncOneRepository, hc2, ha2, repoPassAfterAuth, hp2, ht2, hrel2]
  have hm : (syncMultipleRepositories cfg env [rc1, rc2] fs).fs =
      (syncOneRepository cfg env rc2
        ((syncOneRepository cfg env rc1 fs).fs)).fs := rfl
  rw [hm, h2eq]
  exact syncFiles_single_lookup _ _ _ _ _ hok2 hne2

/-- C8 (witness): the concrete two-repository collision — the local
`x.md` ends with the second repository's content `B`. -/
theorem flattening_last_wins_witness :
    (syncMultipleRepositories cfgAll envC8
      [⟨"https://github.com/r/one", "main"⟩,
        ⟨"https://github.com/r/two", "main"⟩] fsEmpty).fs
      (joinPath cfgAll.promptsDirectory (basename "prompts/prompt/x.md")) =
      some (some "B") :=
  flattening_last_wins cfgAll envC8
    ⟨"https://github.com/r/one", "main"⟩
    ⟨"https://github.com/r/two", "main"⟩ fsEmpty ("o", "r") ("o", "r")
    [⟨"prompts/chatmode/x.md", .blob⟩] [⟨"prompts/prompt/x.md", .blob⟩]
    ⟨"prompts/chatmode/x.md", .blob⟩ ⟨"prompts/prompt/x.md", .blob⟩
    "A" "B" rfl rfl rfl rfl (by decide) rfl (by decide) rfl rfl rfl rfl
    (by decide) rfl (by decide) (by decide)

/-! ## C7: idempotence -/

lemma writePairs_mono (fc : String → Except String String) (dir : String)
    (f : GitTreeItem) (rest : List GitTreeItem) :
    ∀ pr ∈ writePairsOfList fc dir rest,
      pr ∈ writePairsOfList fc dir (f :: rest) := by
  intro pr hpr
  unfold writePairsOfList at hpr ⊢
  rcases List.mem_filterMap.mp hpr with ⟨a, ha, hga⟩
  exact List.mem_filterMap.mpr ⟨a, List.mem_cons_of_mem _ ha, hga⟩

lemma pair_mem_writePairs (fc : String → Except String String)
    (dir : String) (f : GitTreeItem) (files : List GitTreeItem) (c : String)
    (hmem : f ∈ files) (hok : fc f.path = Except.ok c) (hne : c ≠ "") :
    (joinPath dir (basename f.path), c) ∈ writePairsOfList fc dir files := by
  unfold writePairsOfList
  exact List.mem_filterMap.mpr ⟨f, hmem, by simp [hok, hne]⟩

lemma syncFiles_lookup_preserved (fc : String → Except String String)
    (dir : String) :
    ∀ (files : List GitTreeItem) (fs : LocalFS) (l c : String),
      fs l = some (some c) →
      (∀ pr ∈ writePairsOfList fc dir files, pr.1 = l → pr.2 = c) →
      ((syncFiles fc dir files fs).fs) l = some (some c) := by
  intro files
  induction files with
  | nil => intro fs l c h _; simpa [syncFiles] using h
  | cons f rest ih =>
    intro fs l c h hcons
    have hrest : ∀ pr ∈ writePairsOfList fc dir rest, pr.1 = l → pr.2 = c :=
      fun pr hpr => hcons pr (writePairs_mono fc dir f rest pr hpr)
    cases hfc : fc f.path with
    | error e => simpa [syncFiles, hfc] using h
    | ok ct =>
      by_cases hct : ct = ""
      · simpa [syncFiles, hfc, hct] using ih fs l c h hrest
      · cases hs : shouldUpdateFile fs (joinPath dir (basename f.path)) ct
          with
        | false => simpa [syncFiles, hfc, hct, hs] using ih fs l c h hrest
        | true =>
          have hwrite : (fs.write (joinPath dir (basename f.path)) ct) l =
              some (some c) := by
            unfold LocalFS.write
            by_cases hl : l = joinPath dir (basename f.path)
            · have hpm := pair_mem_writePairs fc dir f (f :: rest) ct
                (List.mem_cons_self _ _) hfc hct
              have := hcons _ hpm hl.symm
              simp [hl, ← this]
            · simp [hl, h]
          simpa [syncFiles, hfc, hct, hs] using
            ih (fs.write (joinPath dir (basename f.path)) ct) l c
              hwrite hrest

lemma syncFiles_ready_after (fc : String → Except String String)
    (dir : String) :
    ∀ (files : List GitTreeItem) (fs : LocalFS),
      (∀ pr1 ∈ writePairsOfList fc dir files,
        ∀ pr2 ∈ writePairsOfList fc dir files, pr1.1 = pr2.1 → pr1.2 = pr2.2) →
      fsReady fc dir ((syncFiles fc dir files fs).fs) files := by
  intro files
  induction files with
  | nil => intro fs _; simp [fsReady]
  | cons f rest ih =>
    intro fs hcons
    have hconsrest : ∀ pr1 ∈ writePairsOfList fc dir rest,
        ∀ pr2 ∈ writePairsOfList fc dir rest, pr1.1 = pr2.1 → pr1.2 = pr2.2 :=
      fun pr1 h1 pr2 h2 => hcons pr1 (writePairs_mono fc dir f rest pr1 h1)
        pr2 (writePairs_mono fc dir f rest pr2 h2)
    cases hfc : fc f.path with
    | error e => simp [fsReady, hfc]
    | ok ct =>
      by_cases hct : ct = ""
      · have := ih fs hconsrest
        simp only [syncFiles, hfc, hct, if_pos rfl, fsReady]
        refine ⟨fun hne => absurd rfl hne, ?_⟩
        simpa [syncFiles, hfc, hct] using this
      · have hpm := pair_mem_writePairs fc dir f (f :: rest) ct
          (List.mem_cons_self _ _) hfc hct
        have hatl : ∀ pr ∈ writePairsOfList fc dir rest,
            pr.1 = joinPath dir (basename f.path) → pr.2 = ct :=
          fun pr hpr heq =>
            hcons pr (writePairs_mono fc dir f rest pr hpr) _ hpm heq
        cases hs : shouldUpdateFile fs (joinPath dir (basename f.path)) ct
          with
        | true =>
          have hwr : (fs.write (joinPath dir (basename f.path)) ct)
              (joinPath dir (basename f.path)) = some (some ct) := by
            simp [LocalFS.write]
          simp only [fsReady, hfc]
          constructor
          · intro _
            have := syncFiles_lookup_preserved fc dir rest
              (fs.write (joinPath dir (basename f.path)) ct) _ ct hwr hatl
            simpa [syncFiles, hfc, hct, hs] using this
          · have := ih (fs.write (joinPath dir (basename f.path)) ct)
              hconsrest
            simpa [syncFiles, hfc, hct, hs] using this
        | false =>
          have hcur := (shouldUpdateFile_false_iff fs _ ct).mp hs
          simp only [fsReady, hfc]
          constructor
          · intro _
            have := syncFiles_lookup_preserved fc dir rest fs _ ct hcur hatl
            simpa [syncFiles, hfc, hct, hs] using this
          · have := ih fs hconsrest
            simpa [syncFiles, hfc, hct, hs] using this

lemma syncFiles_ready_run (fc : String → Except String String)
    (dir : String) :
    ∀ (files : List GitTreeItem) (fs : LocalFS),
      fsReady fc dir fs files →
      (syncFiles fc dir files fs).itemsUpdated = 0 ∧
      (syncFiles fc dir files fs).fs = fs := by
  intro files
  induction files with
  | nil => intro fs _; simp [syncFiles]
  | cons f rest ih =>
    intro fs h
    cases hfc : fc f.path with
    | error e => simp [syncFiles, hfc]
    | ok ct =>
      simp only [fsReady, hfc] at h
      obtain ⟨h1, h2⟩ := h
      by_cases hct : ct = ""
      · have := ih fs h2
        constructor
        · simpa [syncFiles, hfc, hct] using this.1
        · simpa [syncFiles, hfc, hct] using this.2
      · have hcur : fs (joinPath dir (basename f.path)) = some (some ct) :=
          h1 hct
        have hs : shouldUpdateFile fs (joinPath dir (basename f.path)) ct =
            false := (shouldUpdateFile_false_iff fs _ ct).mpr hcur
        have := ih fs h2
        constructor
        · simpa [syncFiles, hfc, hct, hs] using this.1
        · simpa [syncFiles, hfc, hct, hs] using this.2

lemma fsReady_preserved_syncFiles (fc : String → Except String String)
    (dir : String) :
    ∀ (F : List GitTreeItem) (fcO : String → Except String String)
      (dirO : String) (filesO : List GitTreeItem) (fs : LocalFS),
      fsReady fc dir fs F →
      (∀ pr ∈ writePairsOfList fcO dirO filesO,
        ∀ pr0 ∈ writePairsOfList fc dir F, pr.1 = pr0.1 → pr.2 = pr0.2) →
      fsReady fc dir ((syncFiles fcO dirO filesO fs).fs) F := by
  intro F
  induction F with
  | nil => intro fcO dirO filesO fs _ _; simp [fsReady]
  | cons f rest ih =>
    intro fcO dirO filesO fs hready hcross
    cases hfc : fc f.path with
    | error e => simp [fsReady, hfc]
    | ok ct =>
      simp only [fsReady, hfc] at hready ⊢
      obtain ⟨h1, h2⟩ := hready
      refine ⟨fun hne => ?_, ?_⟩
      · exact syncFiles_lookup_preserved fcO dirO filesO fs _ ct (h1 hne)
          (fun pr hpr heq => hcross pr hpr _
            (pair_mem_writePairs fc dir f (f :: rest) ct
              (List.mem_cons_self _ _) hfc hne) heq)
      · exact ih fcO dirO filesO fs h2
          (fun pr hpr pr0 hpr0 => hcross pr hpr pr0
            (writePairs_mono fc dir f rest pr0 hpr0))

lemma allWritePairs_cons (cfg : Config) (env : SyncEnv) (rc : RepoConfig)
    (rest : List RepoConfig) :
    allWritePairs cfg env (rc :: rest) =
      repoWritePairs cfg (env.providers rc.url) ++
        allWritePairs cfg env rest := by
  simp [allWritePairs]

lemma consistent_of_subset {ps qs : List (String × String)}
    (h : ConsistentPairs ps) (hsub : ∀ x ∈ qs, x ∈ ps) :
    ConsistentPairs qs :=
  fun pr1 h1 pr2 h2 => h pr1 (hsub _ h1) pr2 (hsub _ h2)

lemma fsReady_preserved_syncOne (cfg : Config) (env : SyncEnv)
    (rc : RepoConfig) (fc : String → Except String String) (dir : String)
    (F : List GitTreeItem) (fs : LocalFS)
    (hready : fsReady fc dir fs F)
    (hcross : ∀ pr ∈ repoWritePairs cfg (env.providers rc.url),
      ∀ pr0 ∈ writePairsOfList fc dir F, pr.1 = pr0.1 → pr.2 = pr0.2) :
    fsReady fc dir ((syncOneRepository cfg env rc fs).fs) F := by
  rcases syncOneRepository_spec cfg env rc fs with
    ⟨_, _, hfs⟩ | ⟨_, _, _, t, ht, _, _, hfs⟩
  · rw [hfs]; exact hready
  · rw [hfs]
    refine fsReady_preserved_syncFiles fc dir F _ _ _ fs hready ?_
    intro pr hpr pr0 hpr0 heq
    refine hcross pr ?_ pr0 hpr0 heq
    simpa [repoWritePairs, ht] using hpr

lemma fsReady_preserved_syncMulti (cfg : Config) (env : SyncEnv)
    (fc : String → Except String String) (dir : String)
    (F : List GitTreeItem) :
    ∀ (rcs : List RepoConfig) (fs : LocalFS),
      fsReady fc dir fs F →
      (∀ rc ∈ rcs, ∀ pr ∈ repoWritePairs cfg (env.providers rc.url),
        ∀ pr0 ∈ writePairsOfList fc dir F, pr.1 = pr0.1 → pr.2 = pr0.2) →
      fsReady fc dir ((syncMultipleRepositories cfg env rcs fs).fs) F := by
  intro rcs
  induction rcs with
  | nil => intro fs h _; simpa [syncMultipleRepositories] using h
  | cons rc rest ih =>
    intro fs h hcross
    have hstep := fsReady_preserved_syncOne cfg env rc fc dir F fs h
      (hcross rc (List.mem_cons_self _ _))
    have := ih ((syncOneRepository cfg env rc fs).fs) hstep
      (fun rc' h' => hcross rc' (List.mem_cons_of_mem _ h'))
    simpa [syncMultipleRepositories] using this

lemma multiReady_after (cfg : Config) (env : SyncEnv) :
    ∀ (rcs : List RepoConfig) (fs : LocalFS),
      ConsistentPairs (allWritePairs cfg env rcs) →
      ∀ rc0 ∈ rcs, RepoReady cfg (env.providers rc0.url)
        ((syncMultipleRepositories cfg env rcs fs).fs) := by
  intro rcs
  induction rcs with
  | nil => intro fs _ rc0 h; simp at h
  | cons rc rest ih =>
    intro fs hcons rc0 hrc0
    have hconsrest : ConsistentPairs (allWritePairs cfg env rest) := by
      refine consistent_of_subset hcons ?_
      intro x hx
      rw [allWritePairs_cons]
      exact List.mem_append_right _ hx
    rcases List.mem_cons.mp hrc0 with heq | hmem
    · subst heq
      intro hc ha hpr t ht
      obtain ⟨pr, hpr⟩ := hpr
      obtain ⟨an, rq, heq⟩ := syncOneRepository_authPass cfg env rc0 fs () hc ha
      have hready1 : fsReady (env.providers rc0.url).fileContent
          cfg.promptsDirectory ((syncOneRepository cfg env rc0 fs).fs)
          (filterRelevantFiles cfg t) := by
        rw [heq]
        unfold repoPassAfterAuth
        rw [hpr, ht]
        by_cases hemp : (filterRelevantFiles cfg t).isEmpty = true
        · rw [List.isEmpty_iff.mp hemp]
          simp [hemp, fsReady]
        · simp only [hemp, if_false, Bool.false_eq_true]
          refine syncFiles_ready_after _ _ _ fs ?_
          refine consistent_of_subset hcons ?_
          intro x hx
          rw [allWritePairs_cons]
          refine List.mem_append_left _ ?_
          simpa [repoWritePairs, ht] using hx
      have := fsReady_preserved_syncMulti cfg env _ _ _ rest
        ((syncOneRepository cfg env rc0 fs).fs) hready1 ?_
      · simpa [syncMultipleRepositories] using this
      · intro rc' h' pr1 hpr1 pr0 hpr0 hfst
        refine hcons pr1 ?_ pr0 ?_ hfst
        · rw [allWritePairs_cons]
          refine List.mem_append_right _ ?_
          unfold allWritePairs
          exact List.mem_flatMap.mpr ⟨rc', h', hpr1⟩
        · rw [allWritePairs_cons]
          refine List.mem_append_left _ ?_
          simpa [repoWritePairs, ht] using hpr0
    · have := ih ((syncOneRepository cfg env rc fs).fs) hconsrest rc0 hmem
      simpa [syncMultipleRepositories] using this

lemma syncMulti_ready_run (cfg : Config) (env : SyncEnv) :
    ∀ (rcs : List RepoConfig) (fs : LocalFS),
      (∀ rc ∈ rcs, RepoReady cfg (env.providers rc.url) fs) →
      (syncMultipleRepositories cfg env rcs fs).fs = fs ∧
      ∀ o ∈ (syncMultipleRepositories cfg env rcs fs).result.repositories,
        o.itemsUpdated = 0 := by
  intro rcs
  induction rcs with
  | nil => intro fs _; simp [syncMultipleRepositories]
  | cons rc rest ih =>
    intro fs hready
    have hreadyrest : ∀ rc' ∈ rest, RepoReady cfg (env.providers rc'.url) fs :=
      fun rc' h' => hready rc' (List.mem_cons_of_mem _ h')
    rcases syncOneRepository_spec cfg env rc fs with
      ⟨hs, hi, hfs⟩ | ⟨hc, ha, ⟨pr, hpr⟩, t, ht, hne, ho, hfs⟩
    · have hrest := ih fs hreadyrest
      constructor
      · show (syncMultipleRepositories cfg env rest
          ((syncOneRepository cfg env rc fs).fs)).fs = fs
        rw [hfs]; exact hrest.1
      · intro o hmem
        rcases List.mem_cons.mp hmem with heq | hmem'
        · subst heq; exact hi
        · refine hrest.2 o ?_
          have : (syncMultipleRepositories cfg env rest
              ((syncOneRepository cfg env rc fs).fs)) =
              (syncMultipleRepositories cfg env rest fs) := by rw [hfs]
          rw [← this]; exact hmem'
    · have hfsr := hready rc (List.mem_cons_self _ _) hc ha ⟨pr, hpr⟩ t ht
      have hzero := syncFiles_ready_run (env.providers rc.url).fileContent
        cfg.promptsDirectory (filterRelevantFiles cfg t) fs hfsr
      have hfseq : (syncOneRepository cfg env rc fs).fs = fs := by
        rw [hfs]; exact hzero.2
      have hrest := ih fs hreadyrest
      constructor
      · show (syncMultipleRepositories cfg env rest
          ((syncOneRepository cfg env rc fs).fs)).fs = fs
        rw [hfseq]; exact hrest.1
      · intro o hmem
        rcases List.mem_cons.mp hmem with heq | hmem'
        · subst heq
          rw [ho]
          exact hzero.1
        · refine hrest.2 o ?_
          have : (syncMultipleRepositories cfg env rest
              ((syncOneRepository cfg env rc fs).fs)) =
              (syncMultipleRepositories cfg env rest fs) := by rw [hfseq]
          rw [← this]; exact hmem'

/-- C7 (counterexample): one repository with two filtered files sharing
the basename `x.md` but carrying different contents: the first run updates
two items, and so does the second run on unchanged remote content — the
claim's `itemsUpdated == 0` on the second run fails. -/
theorem idempotence_counterexample :
    (syncMultipleRepositories cfgAll envC7
      [⟨"https://github.com/c/seven", "main"⟩]
      fsEmpty).result.repositories.map (fun o => o.itemsUpdated) = [2] ∧
    (syncMultipleRepositories cfgAll envC7
      [⟨"https://github.com/c/seven", "main"⟩]
      ((syncMultipleRepositories cfgAll envC7
        [⟨"https://github.com/c/seven", "main"⟩]
        fsEmpty).fs)).result.repositories.map (fun o => o.itemsUpdated) =
      [2] ∧ (2 : Nat) ≠ 0 := by
  refine ⟨by decide, by decide, by decide⟩

/-- C7 (amended): provided any two files materialised during the run that
map to the same local path carry identical content (no flattening
collision), a second sync pass over unchanged remote content reports
`itemsUpdated = 0` for every repository and leaves every file byte-
identical; a file is rewritten exactly when its content differs, where a
missing file or a read error during comparison counts as changed. -/
theorem sync_idempotent_when_consistent :
    (∀ (cfg : Config) (env : SyncEnv) (rcs : List RepoConfig)
        (fs0 : LocalFS),
      ConsistentPairs (allWritePairs cfg env rcs) →
      (syncMultipleRepositories cfg env rcs
        ((syncMultipleRepositories cfg env rcs fs0).fs)).fs =
        (syncMultipleRepositories cfg env rcs fs0).fs ∧
      ∀ o ∈ (syncMultipleRepositories cfg env rcs
          ((syncMultipleRepositories cfg env rcs fs0).fs)).result.repositories,
        o.itemsUpdated = 0) ∧
    (∀ (fs : LocalFS) (l c : String),
      shouldUpdateFile fs l c = true ↔
        (fs l = none ∨ fs l = some none ∨
          ∃ existing, fs l = some (some existing) ∧ existing ≠ c)) := by
  constructor
  · intro cfg env rcs fs0 hcons
    exact syncMulti_ready_run cfg env rcs _
      (multiReady_after cfg env rcs fs0 hcons)
  · exact shouldUpdateFile_true_iff

/-- C7 (witness): the idempotence conclusion at the concrete healthy
single-repository environment. -/
theorem sync_idempotent_when_consistent_witness :
    (syncMultipleRepositories cfgAll envA
      [⟨"https://github.com/a/one", "main"⟩]
      ((syncMultipleRepositories cfgAll envA
        [⟨"https://github.com/a/one", "main"⟩] fsEmpty).fs)).fs =
      (syncMultipleRepositories cfgAll envA
        [⟨"https://github.com/a/one", "main"⟩] fsEmpty).fs :=
  (sync_idempotent_when_consistent.1 cfgAll envA
    [⟨"https://github.com/a/one", "main"⟩] fsEmpty
    (by unfold ConsistentPairs; decide)).1

end PromptVault
